import Mathlib

/-!
Shallow embedding of `ckb-cli-light-client` (Rust) for specification checking.

Source layout: `src/dao.rs` (DAO deposit / prepare / withdraw commands and DAO
cell queries), `src/wallet.rs` (transfer building and signer selection),
`src/common.rs` (hex helpers).  Strings are modelled as `List Char`, byte
sequences as `List Nat` (each element < 256 by construction), machine integers
as `Nat` with explicit `% 2^64` where Rust release-mode wrapping matters.
External library calls (secp256k1, blake2b, the light-client RPC collector,
the ckb-sdk transaction builders) are modelled as parameters or, where the
claim depends on their behaviour, as definitions written from the spec and
marked `Modelled from the spec:`.
-/

/-- Rust `ckb_types::core::ScriptHashType` (`Data` / `Type` / `Data1`). -/
inductive ScriptHashType
  | data
  | type
  | data1
deriving DecidableEq, Repr

/-- Rust `ckb_types::packed::Script`: 32-byte code hash, hash type, args. -/
structure Script where
  code_hash : List Nat
  hash_type : ScriptHashType
  args : List Nat
deriving DecidableEq, Repr

/-- `ckb_sdk::constants::SIGHASH_TYPE_HASH`
(`0x9bd7e06f3ecf4be0f2fcd2188b23f1b9fcc88e5d4b65a8637b17723bbda3cce8`). -/
def SIGHASH_TYPE_HASH : List Nat :=
  [0x9b, 0xd7, 0xe0, 0x6f, 0x3e, 0xcf, 0x4b, 0xe0,
   0xf2, 0xfc, 0xd2, 0x18, 0x8b, 0x23, 0xf1, 0xb9,
   0xfc, 0xc8, 0x8e, 0x5d, 0x4b, 0x65, 0xa8, 0x63,
   0x7b, 0x17, 0x72, 0x3b, 0xbd, 0xa3, 0xcc, 0xe8]

/-- `ckb_sdk::constants::MULTISIG_TYPE_HASH`
(`0x5c5069eb0857efc65e1bca0c07df34c31663b3622fd3876c876320fc9634e2a8`). -/
def MULTISIG_TYPE_HASH : List Nat :=
  [0x5c, 0x50, 0x69, 0xeb, 0x08, 0x57, 0xef, 0xc6,
   0x5e, 0x1b, 0xca, 0x0c, 0x07, 0xdf, 0x34, 0xc3,
   0x16, 0x63, 0xb3, 0x62, 0x2f, 0xd3, 0x87, 0x6c,
   0x87, 0x63, 0x20, 0xfc, 0x96, 0x34, 0xe2, 0xa8]

/-- `ckb_sdk::constants::DAO_TYPE_HASH`
(`0x82d76d1b75fe2fd9a27dfbaa65a039221a380d76c926f378d3f81cf3e7e13f2e`). -/
def DAO_TYPE_HASH : List Nat :=
  [0x82, 0xd7, 0x6d, 0x1b, 0x75, 0xfe, 0x2f, 0xd9,
   0xa2, 0x7d, 0xfb, 0xaa, 0x65, 0xa0, 0x39, 0x22,
   0x1a, 0x38, 0x0d, 0x76, 0xc9, 0x26, 0xf3, 0x78,
   0xd3, 0xf8, 0x1c, 0xf3, 0xe7, 0xe1, 0x3f, 0x2e]

/-- Rust `ckb_types::packed::OutPoint`: a 32-byte transaction hash plus
an output index (`u32`). -/
structure OutPoint where
  tx_hash : List Nat
  index : Nat
deriving DecidableEq, Repr

/-- Rust `ckb_types::packed::CellInput`: an out-point plus a `since` field. -/
structure CellInput where
  previous_output : OutPoint
  since : Nat
deriving DecidableEq, Repr

/-- Rust `ckb_types::packed::WitnessArgs`: three optional byte fields. -/
structure WitnessArgs where
  lock : Option (List Nat)
  input_type : Option (List Nat)
  output_type : Option (List Nat)
deriving DecidableEq, Repr

/-- Rust `ckb_types::packed::CellOutput`: lock script, optional type script,
capacity in shannons (`u64`). -/
structure CellOutput where
  lock : Script
  type_script : Option Script
  capacity : Nat
deriving DecidableEq, Repr

/-! ## `parse_out_points` (src/dao.rs lines 229-253)

Rust strings are modelled as `List Char`.  `input.split('-')` is modelled by
`splitOnDash`, `strip_prefix("0x")` by `strip0x`, `H256::from_str` by
`h256FromStr` (exactly 64 hex digits, either case), and `u32::from_str` by
`u32FromStr` (optional leading `+`, one or more decimal digits, value below
`2^32`). -/

/-- Rust `str::split('-')`: yields the (possibly empty) chunks between
dashes; the empty string yields one empty chunk. -/
def splitOnDash : List Char → List (List Char)
  | [] => [[]]
  | c :: rest =>
    if c = '-' then [] :: splitOnDash rest
    else
      match splitOnDash rest with
      | [] => [[c]]
      | g :: gs => (c :: g) :: gs

/-- Rust `str::strip_prefix("0x")` with fallback to the input
(src/dao.rs lines 243-247). -/
def strip0x (s : List Char) : List Char :=
  match s with
  | '0' :: 'x' :: rest => rest
  | _ => s

/-- Value of one hex digit, `none` for a non-hex character. -/
def hexVal (c : Char) : Option Nat :=
  if '0' ≤ c ∧ c ≤ '9' then some (c.toNat - '0'.toNat)
  else if 'a' ≤ c ∧ c ≤ 'f' then some (c.toNat - 'a'.toNat + 10)
  else if 'A' ≤ c ∧ c ≤ 'F' then some (c.toNat - 'A'.toNat + 10)
  else none

/-- Decode an even-length hex string into bytes; `none` on an odd length or a
non-hex character. -/
def hexBytes : List Char → Option (List Nat)
  | [] => some []
  | [_] => none
  | c1 :: c2 :: rest =>
    match hexVal c1, hexVal c2, hexBytes rest with
    | some h, some l, some tl => some ((16 * h + l) :: tl)
    | _, _, _ => none

/-- Rust `H256::from_str`: exactly 64 hex digits decoding to 32 bytes. -/
def h256FromStr (s : List Char) : Option (List Nat) :=
  if s.length = 64 then hexBytes s else none

/-- Digits of a decimal numeral; `none` when empty or a non-digit occurs. -/
def decDigits (cs : List Char) : Option Nat :=
  if cs = [] then none
  else if cs.all Char.isDigit then
    some (cs.foldl (fun a c => 10 * a + (c.toNat - '0'.toNat)) 0)
  else none

/-- Rust `u32::from_str`: optional leading `+`, then decimal digits, value
must fit in `u32`. -/
def u32FromStr (s : List Char) : Option Nat :=
  let cs := match s with
    | '+' :: rest => rest
    | _ => s
  match decDigits cs with
  | some v => if v < 2 ^ 32 then some v else none
  | none => none

/-- One entry of `parse_out_points` (the closure at src/dao.rs lines 235-251):
split on `-` into exactly two parts, parse the first (after stripping an
optional `0x`) as a 32-byte hash and the second as a `u32`. -/
def parseOutPointStr (input : List Char) : Except (List Char) OutPoint :=
  match splitOnDash input with
  | [p0, p1] =>
    match h256FromStr (strip0x p0) with
    | none => .error ('h' :: input)
    | some h =>
      match u32FromStr p1 with
      | none => .error ('i' :: input)
      | some i => .ok ⟨h, i⟩
  | _ => .error ('I' :: input)

/-- Rust `collect::<Result<Vec<_>, _>>()`: map, stopping at the first error. -/
def mapExcept (f : α → Except ε β) : List α → Except ε (List β)
  | [] => .ok []
  | a :: rest =>
    match f a with
    | .error e => .error e
    | .ok b =>
      match mapExcept f rest with
      | .error e => .error e
      | .ok bs => .ok (b :: bs)

/-- `parse_out_points` (src/dao.rs lines 229-253): error on an empty list,
otherwise parse every entry, stopping at the first failure. -/
def parse_out_points (out_points : List (List Char)) :
    Except (List Char) (List OutPoint) :=
  if out_points.isEmpty then .error "missing out poinst".data
  else mapExcept parseOutPointStr out_points

/-- An entry accepted by `parse_out_points`: splits on `-` into exactly two
parts, the first (with optional `0x` stripped) a 32-byte hash, the second a
`u32`. -/
def entryWellFormed (s : List Char) : Prop :=
  ∃ p0 p1, splitOnDash s = [p0, p1] ∧
    (h256FromStr (strip0x p0)).isSome ∧ (u32FromStr p1).isSome

/-- Rust `ckb_sdk::tx_builder::dao::DaoWithdrawItem` as used here:
an out-point plus an optional initial witness. -/
structure DaoWithdrawItem where
  out_point : OutPoint
  init_witness : Option WitnessArgs
deriving DecidableEq, Repr

/-- The 65-byte zero sighash placeholder witness
(`WitnessArgs::new_builder().lock(Some(vec![0u8; 65])).build()`). -/
def sighashPlaceholderWitness : WitnessArgs :=
  { lock := some (List.replicate 65 0), input_type := none, output_type := none }

/-- Withdraw-command item list (src/dao.rs lines 127-130): parse the
out-points and wrap each as a `DaoWithdrawItem` with no initial witness. -/
def withdraw_items (out_points : List (List Char)) :
    Except (List Char) (List DaoWithdrawItem) :=
  match parse_out_points out_points with
  | .error e => .error e
  | .ok ops => .ok (ops.map (fun op => ⟨op, none⟩))

/-- `items[0].init_witness = Some(...)` (src/dao.rs lines 131-135): indexing
an empty vector panics in Rust, modelled as `none`. -/
def setFirstWitness (items : List DaoWithdrawItem) (w : WitnessArgs) :
    Option (List DaoWithdrawItem) :=
  match items with
  | [] => none
  | it :: rest => some ({ it with init_witness := some w } :: rest)

/-! ## Live cells and the DAO cell query (src/dao.rs lines 255-324) -/

/-- Rust `ckb_sdk::traits::LiveCell`: the fields used by this program. -/
structure LiveCell where
  out_point : OutPoint
  lock : Script
  type_script : Option Script
  capacity : Nat
  output_data : List Nat
  block_number : Nat
  tx_index : Nat
deriving DecidableEq, Repr

/-- Rust `ckb_sdk::traits::ValueRangeOption`: a half-open `[start, stop)`
range. -/
structure ValueRangeOption where
  start : Nat
  stop : Nat
deriving DecidableEq, Repr

/-- `ValueRangeOption::new_exact(v)` = the range `[v, v+1)`. -/
def ValueRangeOption.new_exact (v : Nat) : ValueRangeOption := ⟨v, v + 1⟩

/-- Rust `ckb_sdk::traits::CellQueryOptions`: the fields this program sets. -/
structure CellQueryOptions where
  primary_script : Script
  secondary_script : Option Script
  data_len_range : Option ValueRangeOption
  min_total_capacity : Nat
deriving DecidableEq, Repr

/-- `CellQueryOptions::new_lock(script)`: primary lock script with default
secondary script (`None`), data length range (`None`) and
`min_total_capacity` (`1`). -/
def CellQueryOptions.new_lock (s : Script) : CellQueryOptions :=
  { primary_script := s, secondary_script := none,
    data_len_range := none, min_total_capacity := 1 }

/-- The DAO type script built at src/dao.rs lines 303-306: code hash
`DAO_TYPE_HASH`, hash type `Type`, empty args. -/
def dao_type_script : Script :=
  { code_hash := DAO_TYPE_HASH, hash_type := .type, args := [] }

/-- The query built by `query_dao_cells` (src/dao.rs lines 307-310): lock =
the address's script, secondary script = the DAO type script, data length
exactly 8, `min_total_capacity = u64::max_value()`. -/
def dao_cell_query (address_lock : Script) : CellQueryOptions :=
  { CellQueryOptions.new_lock address_lock with
    secondary_script := some dao_type_script,
    data_len_range := some (ValueRangeOption.new_exact 8),
    min_total_capacity := 2 ^ 64 - 1 }

/-- Modelled from the spec: whether a live cell matches a cell query.  The
matching itself is performed by `ckb_sdk::traits::LightClientCellCollector`
(not under src/); §4.1 of the spec states the primary (lock) script must
equal the target, the secondary (type) script, when present, must
additionally match, and the data length must fall in the half-open range. -/
def cellMatchesQuery (q : CellQueryOptions) (c : LiveCell) : Bool :=
  decide (c.lock = q.primary_script) &&
  (match q.secondary_script with
   | none => true
   | some s => decide (c.type_script = some s)) &&
  (match q.data_len_range with
   | none => true
   | some r => decide (r.start ≤ c.output_data.length ∧
                       c.output_data.length < r.stop))

/-- Modelled from the spec: `collect_live_cells` over a fixed ledger
snapshot.  The collector (not under src/) pages through live cells matching
the query; per §4.1, requesting `min_total_capacity = MAX` makes it drain
pagination fully, so the result is every matching cell of the snapshot. -/
def collect_live_cells (ledger : List LiveCell) (q : CellQueryOptions) :
    List LiveCell :=
  ledger.filter (cellMatchesQuery q)

/-- `byteorder::LittleEndian::read_u64(&data[0..8])`: the little-endian
integer of the first 8 bytes. -/
def readU64LE (data : List Nat) : Nat :=
  (data.take 8).foldr (fun b acc => b + 256 * acc) 0

/-- `query_dao_cells` (src/dao.rs lines 298-324), up to the projection to
`LiveCellInfo`: collect the cells matching `dao_cell_query` and keep those
whose 8-byte little-endian data field is zero (`is_deposit`) or nonzero
(otherwise). -/
def query_dao_cells (ledger : List LiveCell) (address_lock : Script)
    (is_deposit : Bool) : List LiveCell :=
  let cell_filter : Nat → Bool :=
    if is_deposit then (fun n => n == 0) else (fun n => n != 0)
  (collect_live_cells ledger (dao_cell_query address_lock)).filter
    (fun c => cell_filter (readU64LE c.output_data))

/-- Block location of a live cell (src/dao.rs lines 256-260). -/
structure CellIndex where
  tx_index : Nat
  output_index : Nat
deriving DecidableEq, Repr

/-- `LiveCellInfo` (src/dao.rs lines 261-275).  The two hash fields are
computed by `calc_script_hash` (blake2b over the molecule serialization,
external to this repository), passed here as the parameter of
`to_live_cell_info`. -/
structure LiveCellInfo where
  tx_hash : List Nat
  output_index : Nat
  data_bytes : Nat
  lock_hash : List Nat
  type_hashes : Option (List Nat × List Nat)
  capacity : Nat
  number : Nat
  index : CellIndex
deriving DecidableEq, Repr

/-- `to_live_cell_info` (src/dao.rs lines 276-296), parameterized by the
external `calc_script_hash`. -/
def to_live_cell_info (calcScriptHash : Script → List Nat) (c : LiveCell) :
    LiveCellInfo :=
  { tx_hash := c.out_point.tx_hash,
    output_index := c.out_point.index,
    data_bytes := c.output_data.length,
    lock_hash := calcScriptHash c.lock,
    type_hashes := c.type_script.map
      (fun ts => (ts.code_hash, calcScriptHash ts)),
    capacity := c.capacity,
    number := c.block_number,
    index := { tx_index := c.tx_index, output_index := c.out_point.index } }

/-- The `total_capacity` computed by the query branches of `invoke`
(src/dao.rs lines 145 and 157): a `u64` sum, wrapping modulo `2^64` in
release mode. -/
def invoke_total_capacity (cells : List LiveCellInfo) : Nat :=
  cells.foldl (fun a c => (a + c.capacity) % 2 ^ 64) 0

/-- The `QueryDepositedCells` / `QueryPreparedCells` branches of `invoke`
(src/dao.rs lines 143-166): the cell infos and their total capacity. -/
def invoke_query (calcScriptHash : Script → List Nat)
    (ledger : List LiveCell) (address_lock : Script) (is_deposit : Bool) :
    List LiveCellInfo × Nat :=
  let cells := (query_dao_cells ledger address_lock is_deposit).map
    (to_live_cell_info calcScriptHash)
  (cells, invoke_total_capacity cells)

/-! ## `get_signer` (src/wallet.rs lines 153-190) -/

/-- The order of the secp256k1 group: `secp256k1::SecretKey::from_slice`
accepts a 32-byte value exactly when it is nonzero and below this order. -/
def SECP256K1_ORDER : Nat :=
  0xFFFFFFFFFFFFFFFFFFFFFFFFFFFFFFFEBAAEDCE6AF48A03BBFD25E8CD0364141

/-- A valid secp256k1 private key (the success condition of
`SecretKey::from_slice` on the 32-byte `H256`). -/
def secretKeyValid (k : Nat) : Prop := 0 < k ∧ k < SECP256K1_ORDER

instance (k : Nat) : Decidable (secretKeyValid k) := by
  unfold secretKeyValid; infer_instance

/-- The two signer variants `get_signer` can return: the in-memory raw-key
signer (`SecpCkbRawKeySigner`) and the keystore signer
(`FileSystemKeystoreSigner`) unlocked for a 20-byte account id. -/
inductive SignerModel
  | rawKey (keys : List Nat)
  | keystore (account : List Nat)
deriving DecidableEq, Repr

/-- The `from_key` branch of `get_signer` (src/wallet.rs lines 157-174).
`derivePubSer` stands for the external
`secp256k1::PublicKey::from_secret_key` composed with `serialize()`, and
`blake2b256` for the external `ckb_hash::blake2b_256`; the sender script is
built from `hash160 = blake2b_256(pubkey.serialize())[0..20]`. -/
def get_signer_from_key (derivePubSer : Nat → List Nat)
    (blake2b256 : List Nat → List Nat) (k : Nat) :
    Except (List Char) (Script × SignerModel) :=
  if secretKeyValid k then
    let hash160 := (blake2b256 (derivePubSer k)).take 20
    .ok ({ code_hash := SIGHASH_TYPE_HASH, hash_type := .type,
           args := hash160 }, .rawKey [k])
  else .error "invalid from key".data

/-- The `from_address` branch of `get_signer` (src/wallet.rs lines 175-189).
The address is modelled by its lock script (`Script::from(&from_address)`);
the password prompt, keystore loading and `signer.unlock` are external and
modelled by the `unlockAccount` parameter. -/
def get_signer_from_address
    (unlockAccount : List Nat → Except (List Char) Unit) (sender : Script) :
    Except (List Char) (Script × SignerModel) :=
  if sender.code_hash ≠ SIGHASH_TYPE_HASH ∨
     sender.hash_type ≠ .type ∨
     sender.args.length ≠ 20 then
    .error "from address is not sighash address".data
  else
    match unlockAccount sender.args with
    | .error e => .error e
    | .ok _ => .ok (sender, .keystore sender.args)

/-! ## Building and sending (src/dao.rs lines 171-227,
src/wallet.rs lines 141-150) -/

/-- Rust `ckb_sdk::unlock::ScriptGroup`: a lock script and the indices of
the inputs it governs. -/
structure ScriptGroup where
  script : Script
  input_indices : List Nat
deriving DecidableEq, Repr

/-- A built transaction (the fields the modelled claims inspect). -/
structure Transaction where
  inputs : List CellInput
  outputs : List CellOutput
  witnesses : List (List Nat)
deriving DecidableEq, Repr

/-- How a build-and-finalize call ends: a propagated builder error (`?`),
a Rust panic (`assert!` failure), or a completed transaction (returned by
`build_transfer_tx`, broadcast by `build_and_send_dao_tx`). -/
inductive BuildTxOutcome
  | panicked
  | failed (e : List Char)
  | completed (tx : Transaction)
deriving DecidableEq, Repr

/-- The tail of `build_and_send_dao_tx` (src/dao.rs lines 207-226) as a
function of the result of `builder.build_unlocked(...)`: a builder error
propagates via `?`; otherwise `assert!(still_locked_groups.is_empty())`
panics when any group is still locked, and only on an empty group list does
control reach `send_transaction`. -/
def build_and_send_dao_tx
    (build_result : Except (List Char) (Transaction × List ScriptGroup)) :
    BuildTxOutcome :=
  match build_result with
  | .error e => .failed e
  | .ok (tx, still_locked_groups) =>
    if still_locked_groups.isEmpty then .completed tx else .panicked

/-- The tail of `build_transfer_tx` (src/wallet.rs lines 141-150):
identical shape — propagate the builder error, `assert!` that no group is
still locked, return the transaction. -/
def build_transfer_tx_finalize
    (build_result : Except (List Char) (Transaction × List ScriptGroup)) :
    BuildTxOutcome :=
  match build_result with
  | .error e => .failed e
  | .ok (tx, still_locked_groups) =>
    if still_locked_groups.isEmpty then .completed tx else .panicked

/-- `CapacityBalancer` as constructed in `build_and_send_dao_tx`
(src/dao.rs lines 178-188). -/
structure CapacityBalancer where
  fee_rate : Nat
  change_lock_script : Option Script
  capacity_provider : List (Script × WitnessArgs)
  force_small_change_as_fee : Option Nat
deriving DecidableEq, Repr

/-- The balancer built by `build_and_send_dao_tx` (src/dao.rs lines
178-188): fee rate 1000 shannons/KB, no change lock override, a single
capacity source — the sender — with the 65-byte zero placeholder witness. -/
def dao_balancer (sender : Script) : CapacityBalancer :=
  { fee_rate := 1000,
    change_lock_script := none,
    capacity_provider :=
      [(sender,
        { lock := some (List.replicate 65 0),
          input_type := none, output_type := none })],
    force_small_change_as_fee := none }

/-! ## DAO prepare (src/dao.rs lines 108-120) -/

/-- Rust `ckb_sdk::tx_builder::dao::DaoPrepareItem`: an input plus an
optional initial witness; `DaoPrepareItem::from(CellInput)` leaves the
initial witness unset. -/
structure DaoPrepareItem where
  input : CellInput
  init_witness : Option WitnessArgs
deriving DecidableEq, Repr

/-- `DaoPrepareItem::from(CellInput::new(out_point, 0))`
(src/dao.rs line 116). -/
def daoPrepareItemFromInput (i : CellInput) : DaoPrepareItem :=
  { input := i, init_witness := none }

/-- The item list built by the Prepare branch of `invoke`
(src/dao.rs lines 114-117). -/
def prepare_items (out_points : List OutPoint) : List DaoPrepareItem :=
  out_points.map (fun op => daoPrepareItemFromInput ⟨op, 0⟩)

/-- Modelled from the spec: the witness the build pipeline
(`DaoPrepareBuilder` plus the capacity balancer, both in ckb-sdk, not under
src/) installs on the first input of a DAO prepare transaction.  §4.5 of the
spec: the first input's witness must carry an initial 65-byte zero sighash
placeholder, filled by the unlock pass; it comes from the item's
`init_witness` when set, otherwise from the capacity provider's placeholder
witness for the sender's script group. -/
def prepare_first_input_witness (items : List DaoPrepareItem)
    (balancer : CapacityBalancer) : Option WitnessArgs :=
  match items with
  | [] => none
  | item :: _ =>
    some (item.init_witness.getD
      ((balancer.capacity_provider.head?.map Prod.snd).getD
        ⟨none, none, none⟩))

/-! ## DAO withdraw (src/dao.rs lines 121-141) -/

/-- Rust `ckb_sdk::tx_builder::dao::DaoWithdrawReceiver`: the variant used
by this program delivers to a lock script with an optional fee rate. -/
inductive DaoWithdrawReceiver
  | lockScript (script : Script) (fee_rate : Option Nat)
  | custom
deriving DecidableEq, Repr

/-- The receiver built by the Withdraw branch of `invoke`
(src/dao.rs lines 136-139): the sender's own lock script with fee rate
1000. -/
def withdraw_receiver (sender : Script) : DaoWithdrawReceiver :=
  .lockScript sender (some 1000)

/-- Modelled from the spec: the single payout output the withdraw builder
(ckb-sdk, not under src/) produces for a `LockScript` receiver.  §4.5 of the
spec: the total payout (original capacity plus interest of all consumed
cells) is delivered to a single lock-script output, minus the estimated
fee. -/
def withdraw_output (receiver : DaoWithdrawReceiver)
    (total_payout fee : Nat) : Option CellOutput :=
  match receiver with
  | .lockScript s _ => some { lock := s, type_script := none,
                              capacity := total_payout - fee }
  | .custom => none

/-- Modelled from the spec: the DAO interest formula
`payout = floor(deposited_capacity * AR_withdraw / AR_deposit)` (§4.5),
computed by the ckb-sdk withdraw builder (not under src/) in exact integer
arithmetic. -/
def dao_payout (deposited_capacity ar_deposit ar_withdraw : Nat) : Nat :=
  deposited_capacity * ar_withdraw / ar_deposit

/-! ## `build_transfer_tx` address check and output
(src/wallet.rs lines 119-140) -/

/-- The to-address check and output construction of `build_transfer_tx`
(src/wallet.rs lines 119-140).  The to-address is modelled by its lock
script (`Script::from(&to_address)`; the payload's hash type, code hash and
args are the script's fields).  Rejects unless the check passes, otherwise
builds the single requested output. -/
def build_transfer_output (to_script : Script) (capacity : Nat)
    (skip_check_to_address : Bool) : Except (List Char) CellOutput :=
  if ¬ (skip_check_to_address = true ∨
        (to_script.hash_type = .type ∧
         to_script.code_hash = SIGHASH_TYPE_HASH ∧
         to_script.args.length = 20) ∨
        (to_script.hash_type = .type ∧
         to_script.code_hash = MULTISIG_TYPE_HASH ∧
         (to_script.args.length = 20 ∨ to_script.args.length = 28))) then
    .error "Invalid to-address".data
  else
    .ok { lock := to_script, type_script := none, capacity := capacity }

/-! ## Helper lemmas -/

theorem mapExcept_ok_length {f : α → Except ε β} {l : List α} {bs : List β}
    (h : mapExcept f l = .ok bs) : bs.length = l.length := by
  induction l generalizing bs with
  | nil =>
    unfold mapExcept at h
    cases h
    rfl
  | cons a t ih =>
    unfold mapExcept at h
    cases hfa : f a with
    | error e => rw [hfa] at h; cases h
    | ok b =>
      rw [hfa] at h
      cases hmt : mapExcept f t with
      | error e => rw [hmt] at h; cases h
      | ok bs' =>
        rw [hmt] at h
        cases h
        simp [ih hmt]

theorem mapExcept_ok_forall {f : α → Except ε β} {l : List α} {bs : List β}
    (h : mapExcept f l = .ok bs) : ∀ a ∈ l, ∃ b, f a = .ok b := by
  induction l generalizing bs with
  | nil => intro a ha; cases ha
  | cons a t ih =>
    unfold mapExcept at h
    cases hfa : f a with
    | error e => rw [hfa] at h; cases h
    | ok b =>
      rw [hfa] at h
      cases hmt : mapExcept f t with
      | error e => rw [hmt] at h; cases h
      | ok bs' =>
        intro x hx
        cases hx with
        | head => exact ⟨b, hfa⟩
        | tail _ hmem => exact ih hmt x hmem

theorem mapExcept_ok_of_forall {f : α → Except ε β} {l : List α}
    (h : ∀ a ∈ l, ∃ b, f a = .ok b) : ∃ bs, mapExcept f l = .ok bs := by
  induction l with
  | nil => exact ⟨[], rfl⟩
  | cons a t ih =>
    obtain ⟨b, hb⟩ := h a (List.mem_cons_self a t)
    obtain ⟨bs, hbs⟩ := ih (fun x hx => h x (List.mem_cons_of_mem a hx))
    refine ⟨b :: bs, ?_⟩
    unfold mapExcept
    rw [hb, hbs]

theorem parseOutPointStr_ok_iff (s : List Char) :
    (∃ op, parseOutPointStr s = .ok op) ↔ entryWellFormed s := by
  unfold parseOutPointStr entryWellFormed
  constructor
  · rintro ⟨op, hop⟩
    split at hop
    case _ p0 p1 heq =>
      cases hh : h256FromStr (strip0x p0) with
      | none => rw [hh] at hop; cases hop
      | some hsh =>
        rw [hh] at hop
        cases hi : u32FromStr p1 with
        | none => rw [hi] at hop; cases hop
        | some i =>
          exact ⟨p0, p1, heq, by simp [hh], by simp [hi]⟩
    case _ => cases hop
  · rintro ⟨p0, p1, hsplit, h1, h2⟩
    rw [hsplit]
    obtain ⟨hsh, hh⟩ := Option.isSome_iff_exists.mp h1
    obtain ⟨i, hi⟩ := Option.isSome_iff_exists.mp h2
    exact ⟨⟨hsh, i⟩, by simp [hh, hi]⟩

theorem foldl_wrap_add_eq_sum (l : List Nat) (acc : Nat)
    (h : acc + l.sum < 2 ^ 64) :
    l.foldl (fun a c => (a + c) % 2 ^ 64) acc = acc + l.sum := by
  induction l generalizing acc with
  | nil => simp
  | cons x xs ih =>
    simp only [List.foldl_cons, List.sum_cons] at *
    rw [Nat.mod_eq_of_lt (by omega), ih (acc + x) (by omega)]
    omega

/-! ## Claim theorems -/

/-- C8: depositing `100_00000000` shannons, preparing in a block with
accumulated rate `10000000000000000` and withdrawing in a block with
accumulated rate `10001000000000000` yields
`payout = floor(100_00000000 * 10001000000000000 / 10000000000000000)
= 10001000000` shannons, by the formula
`payout = floor(deposited_capacity * AR_withdraw / AR_deposit)` in exact
integer arithmetic. -/
theorem dao_payout_concrete_scenario :
    dao_payout 10000000000 10000000000000000 10001000000000000 =
      10001000000 := by
  rfl

/-- C7: the receiver the Withdraw command passes to the withdraw builder is
the sender's own lock script with the configured fee rate 1000, and the
single payout output it induces is locked by the sender's lock with the
estimated fee deducted from the total payout. -/
theorem withdraw_receiver_is_sender_lock (sender : Script)
    (total_payout fee : Nat) :
    withdraw_receiver sender = .lockScript sender (some 1000) ∧
    withdraw_output (withdraw_receiver sender) total_payout fee =
      some { lock := sender, type_script := none,
             capacity := total_payout - fee } :=
  ⟨rfl, rfl⟩

/-- C6: for every DAO Prepare build (non-empty item list), the witness
installed on the first input is the initial 65-byte zero sighash
placeholder (a `WitnessArgs` whose lock field is 65 zero bytes), later
filled by the unlock protocol. -/
theorem prepare_first_witness_is_zero_placeholder (sender : Script)
    (ops : List OutPoint) (h : ops ≠ []) :
    prepare_first_input_witness (prepare_items ops) (dao_balancer sender) =
      some sighashPlaceholderWitness := by
  cases ops with
  | nil => exact absurd rfl h
  | cons a l => rfl

/-- C6 witness: the placeholder witness at a concrete out-point list. -/
theorem prepare_first_witness_is_zero_placeholder_witness :
    prepare_first_input_witness
      (prepare_items [⟨List.replicate 32 0, 0⟩])
      (dao_balancer ⟨SIGHASH_TYPE_HASH, .type, List.replicate 20 0⟩) =
      some sighashPlaceholderWitness :=
  prepare_first_witness_is_zero_placeholder _ _ (by simp)

/-- C4: for every valid 32-byte private key supplied as `from_key`,
`get_signer` returns the sender lock script with code hash
`SIGHASH_TYPE_HASH`, hash type `Type`, and args the first 20 bytes of the
blake2b-256 hash of the serialized secp256k1 public key derived from the
key, together with a raw-key signer holding exactly that key. -/
theorem get_signer_from_key_spec (derivePubSer : Nat → List Nat)
    (blake2b256 : List Nat → List Nat) (k : Nat) (h : secretKeyValid k) :
    get_signer_from_key derivePubSer blake2b256 k =
      .ok ({ code_hash := SIGHASH_TYPE_HASH, hash_type := .type,
             args := (blake2b256 (derivePubSer k)).take 20 },
           .rawKey [k]) := by
  simp [get_signer_from_key, h]

/-- C4 witness: the raw-key signer path at the concrete key 1. -/
theorem get_signer_from_key_spec_witness :
    get_signer_from_key (fun _ => []) (fun _ => []) 1 =
      .ok ({ code_hash := SIGHASH_TYPE_HASH, hash_type := .type,
             args := ([] : List Nat).take 20 }, .rawKey [1]) :=
  get_signer_from_key_spec (fun _ => []) (fun _ => []) 1 (by decide)

/-- C5: with a `from_address` and no `from_key`, `get_signer` fails unless
the address's lock script has code hash `SIGHASH_TYPE_HASH`, hash type
`Type`, and exactly 20 bytes of args; on success the 20-byte args are the
keystore account id. -/
theorem get_signer_from_address_spec
    (unlockAccount : List Nat → Except (List Char) Unit) (sender : Script) :
    (¬ (sender.code_hash = SIGHASH_TYPE_HASH ∧
        sender.hash_type = .type ∧ sender.args.length = 20) →
      get_signer_from_address unlockAccount sender =
        .error "from address is not sighash address".data) ∧
    (∀ p, get_signer_from_address unlockAccount sender = .ok p →
      (sender.code_hash = SIGHASH_TYPE_HASH ∧
       sender.hash_type = .type ∧ sender.args.length = 20) ∧
      p = (sender, .keystore sender.args)) := by
  constructor
  · intro hn
    have hc : sender.code_hash ≠ SIGHASH_TYPE_HASH ∨
        sender.hash_type ≠ .type ∨ sender.args.length ≠ 20 := by tauto
    simp only [get_signer_from_address, if_pos hc]
  · intro p hp
    by_cases hc : sender.code_hash ≠ SIGHASH_TYPE_HASH ∨
        sender.hash_type ≠ .type ∨ sender.args.length ≠ 20
    · rw [get_signer_from_address, if_pos hc] at hp
      cases hp
    · push_neg at hc
      obtain ⟨h1, h2, h3⟩ := hc
      refine ⟨⟨h1, h2, h3⟩, ?_⟩
      rw [get_signer_from_address, if_neg (by tauto)] at hp
      cases hu : unlockAccount sender.args with
      | error e => rw [hu] at hp; cases hp
      | ok _ => rw [hu] at hp; cases hp; rfl

/-- C5 witness: a well-shaped sighash address with a succeeding keystore
unlock yields that address's 20-byte args as the account id. -/
theorem get_signer_from_address_spec_witness :
    (Script.mk SIGHASH_TYPE_HASH .type (List.replicate 20 0)).code_hash =
        SIGHASH_TYPE_HASH ∧
      (Script.mk SIGHASH_TYPE_HASH .type
        (List.replicate 20 0)).hash_type = .type ∧
      (Script.mk SIGHASH_TYPE_HASH .type
        (List.replicate 20 0)).args.length = 20 ∧
    get_signer_from_address (fun _ => .ok ())
        (Script.mk SIGHASH_TYPE_HASH .type (List.replicate 20 0)) =
      .ok (Script.mk SIGHASH_TYPE_HASH .type (List.replicate 20 0),
           .keystore (List.replicate 20 0)) := by
  have h := (get_signer_from_address_spec (fun _ => .ok ())
    (Script.mk SIGHASH_TYPE_HASH .type (List.replicate 20 0))).2
    (Script.mk SIGHASH_TYPE_HASH .type (List.replicate 20 0),
     .keystore (List.replicate 20 0)) rfl
  exact ⟨h.1.1, h.1.2.1, h.1.2.2, rfl⟩

/-- C10: `build_transfer_tx` rejects the to-address unless
`skip_check_to_address` is set, or the address is a type-hash sighash
script with 20-byte args, or a type-hash multisig script with 20- or
28-byte args; every accepted to-address yields the single requested output
with the receiver's lock script and the requested capacity. -/
theorem build_transfer_output_spec (to_script : Script) (capacity : Nat)
    (skip_check_to_address : Bool) :
    (∀ out,
      build_transfer_output to_script capacity skip_check_to_address =
        .ok out →
      (skip_check_to_address = true ∨
       (to_script.hash_type = .type ∧
        to_script.code_hash = SIGHASH_TYPE_HASH ∧
        to_script.args.length = 20) ∨
       (to_script.hash_type = .type ∧
        to_script.code_hash = MULTISIG_TYPE_HASH ∧
        (to_script.args.length = 20 ∨ to_script.args.length = 28))) ∧
      out = { lock := to_script, type_script := none,
              capacity := capacity }) ∧
    (¬ (skip_check_to_address = true ∨
        (to_script.hash_type = .type ∧
         to_script.code_hash = SIGHASH_TYPE_HASH ∧
         to_script.args.length = 20) ∨
        (to_script.hash_type = .type ∧
         to_script.code_hash = MULTISIG_TYPE_HASH ∧
         (to_script.args.length = 20 ∨ to_script.args.length = 28))) →
      build_transfer_output to_script capacity skip_check_to_address =
        .error "Invalid to-address".data) := by
  constructor
  · intro out hout
    by_cases hc : (skip_check_to_address = true ∨
        (to_script.hash_type = .type ∧
         to_script.code_hash = SIGHASH_TYPE_HASH ∧
         to_script.args.length = 20) ∨
        (to_script.hash_type = .type ∧
         to_script.code_hash = MULTISIG_TYPE_HASH ∧
         (to_script.args.length = 20 ∨ to_script.args.length = 28)))
    · rw [build_transfer_output, if_neg (not_not_intro hc)] at hout
      cases hout
      exact ⟨hc, rfl⟩
    · rw [build_transfer_output, if_pos hc] at hout
      cases hout
  · intro hc
    rw [build_transfer_output, if_pos hc]

/-- C10 witness: a type-hash sighash receiver with 20-byte args is accepted
and produces the requested output. -/
theorem build_transfer_output_spec_witness :
    ((true : Bool) = true ∨
     ((Script.mk SIGHASH_TYPE_HASH .type []).hash_type = .type ∧
      (Script.mk SIGHASH_TYPE_HASH .type []).code_hash =
        SIGHASH_TYPE_HASH ∧
      (Script.mk SIGHASH_TYPE_HASH .type []).args.length = 20) ∨
     ((Script.mk SIGHASH_TYPE_HASH .type []).hash_type = .type ∧
      (Script.mk SIGHASH_TYPE_HASH .type []).code_hash =
        MULTISIG_TYPE_HASH ∧
      ((Script.mk SIGHASH_TYPE_HASH .type []).args.length = 20 ∨
       (Script.mk SIGHASH_TYPE_HASH .type []).args.length = 28))) ∧
    Except.ok (ε := List Char)
        (CellOutput.mk (Script.mk SIGHASH_TYPE_HASH .type []) none 500) =
      .ok { lock := Script.mk SIGHASH_TYPE_HASH .type [],
            type_script := none, capacity := 500 } :=
  let h := (build_transfer_output_spec
    (Script.mk SIGHASH_TYPE_HASH .type []) 500 true).1
    (CellOutput.mk (Script.mk SIGHASH_TYPE_HASH .type []) none 500)
    rfl
  ⟨h.1, by rw [h.2]⟩

/-- C3: the cell collection request of the DAO cell queries sets
`min_total_capacity` to the maximum `u64` value (so pagination is fully
drained), and the reported `total_capacity` equals the sum of the capacity
fields of all cells returned by the query (no wrap occurs below `2^64`). -/
theorem dao_query_drains_and_total_capacity
    (calcScriptHash : Script → List Nat) (ledger : List LiveCell)
    (address_lock : Script) (is_deposit : Bool)
    (h : ((query_dao_cells ledger address_lock is_deposit).map
        LiveCell.capacity).sum < 2 ^ 64) :
    (dao_cell_query address_lock).min_total_capacity = 2 ^ 64 - 1 ∧
    (invoke_query calcScriptHash ledger address_lock is_deposit).2 =
      ((invoke_query calcScriptHash ledger address_lock is_deposit).1.map
        LiveCellInfo.capacity).sum := by
  refine ⟨rfl, ?_⟩
  show invoke_total_capacity
      ((query_dao_cells ledger address_lock is_deposit).map
        (to_live_cell_info calcScriptHash)) = _
  have hmap :
      (((query_dao_cells ledger address_lock is_deposit).map
          (to_live_cell_info calcScriptHash)).map LiveCellInfo.capacity) =
        (query_dao_cells ledger address_lock is_deposit).map
          LiveCell.capacity := by
    rw [List.map_map]
    rfl
  rw [invoke_query]
  show invoke_total_capacity _ = _
  rw [invoke_total_capacity, ← List.foldl_map LiveCellInfo.capacity
    (fun a c => (a + c) % 2 ^ 64), hmap,
    foldl_wrap_add_eq_sum _ 0 (by simpa using h)]
  simp

/-- C3 witness: on a one-cell ledger whose cell matches the deposited-cell
query, the reported total equals the capacity sum. -/
theorem dao_query_drains_and_total_capacity_witness :
    (dao_cell_query (Script.mk SIGHASH_TYPE_HASH .type [])).min_total_capacity
        = 2 ^ 64 - 1 ∧
      (invoke_query (fun _ => [])
        [⟨⟨List.replicate 32 0, 0⟩, Script.mk SIGHASH_TYPE_HASH .type [],
          some dao_type_script, 10000000000, List.replicate 8 0, 5, 1⟩]
        (Script.mk SIGHASH_TYPE_HASH .type []) true).2 =
      ((invoke_query (fun _ => [])
        [⟨⟨List.replicate 32 0, 0⟩, Script.mk SIGHASH_TYPE_HASH .type [],
          some dao_type_script, 10000000000, List.replicate 8 0, 5, 1⟩]
        (Script.mk SIGHASH_TYPE_HASH .type []) true).1.map
          LiveCellInfo.capacity).sum :=
  dao_query_drains_and_total_capacity (fun _ => []) _ _ true (by decide)

/-- C2: `QueryDepositedCells` returns exactly the live cells whose lock is
the address's lock script, whose type script is the DAO type script, whose
data is exactly 8 bytes, and whose 8-byte little-endian integer at data
offset 0 is zero; `QueryPreparedCells` returns, under the same filter,
exactly those whose little-endian integer is nonzero; the two results never
overlap. -/
theorem query_dao_cells_partition (ledger : List LiveCell)
    (address_lock : Script) (c : LiveCell) :
    (c ∈ query_dao_cells ledger address_lock true ↔
      c ∈ ledger ∧ c.lock = address_lock ∧
      c.type_script = some dao_type_script ∧
      c.output_data.length = 8 ∧ readU64LE c.output_data = 0) ∧
    (c ∈ query_dao_cells ledger address_lock false ↔
      c ∈ ledger ∧ c.lock = address_lock ∧
      c.type_script = some dao_type_script ∧
      c.output_data.length = 8 ∧ readU64LE c.output_data ≠ 0) ∧
    ¬ (c ∈ query_dao_cells ledger address_lock true ∧
       c ∈ query_dao_cells ledger address_lock false) := by
  have hchar : ∀ b : Bool, c ∈ query_dao_cells ledger address_lock b ↔
      c ∈ ledger ∧ c.lock = address_lock ∧
      c.type_script = some dao_type_script ∧
      c.output_data.length = 8 ∧
      (if b then readU64LE c.output_data = 0
       else readU64LE c.output_data ≠ 0) := by
    intro b
    cases b <;>
      simp [query_dao_cells, collect_live_cells, cellMatchesQuery,
        dao_cell_query, CellQueryOptions.new_lock,
        ValueRangeOption.new_exact, List.mem_filter, and_assoc] <;>
    · intro _
      constructor
      · rintro ⟨h0, h1, h2, h3, h4⟩
        exact ⟨h1, h2, by omega, h0⟩
      · rintro ⟨h1, h2, h3, h0⟩
        exact ⟨h0, h1, h2, by omega, by omega⟩
  refine ⟨by simpa using hchar true, by simpa using hchar false, ?_⟩
  rintro ⟨ht, hf⟩
  have h0 := ((hchar true).mp ht).2.2.2.2
  have h1 := ((hchar false).mp hf).2.2.2.2
  simp at h0 h1
  exact h1 h0

/-- C1 counterexample: with one still-locked script group, the DAO
build-and-send step panics (Rust `assert!`) instead of returning a typed
error upward. -/
theorem build_and_send_panics_counterexample :
    build_and_send_dao_tx
        (.ok (⟨[], [], []⟩,
              [⟨⟨SIGHASH_TYPE_HASH, .type, []⟩, [0]⟩])) =
      .panicked ∧
    ∀ e, build_and_send_dao_tx
        (.ok (⟨[], [], []⟩,
              [⟨⟨SIGHASH_TYPE_HASH, .type, []⟩, [0]⟩])) ≠
      .failed e := by
  refine ⟨rfl, ?_⟩
  intro e h
  rw [build_and_send_dao_tx] at h
  simp at h

/-- C1 (amended): for every transaction build (transfer and DAO), a
non-empty set of still-locked script groups after the full unlock pass
makes the operation panic via an assertion — it never silently completes —
and the transaction is completed (broadcast for the DAO path, returned for
the transfer path) only when that set is empty. -/
theorem still_locked_groups_abort_build
    (r : Except (List Char) (Transaction × List ScriptGroup)) :
    (∀ tx gs, r = .ok (tx, gs) → gs ≠ [] →
      build_and_send_dao_tx r = .panicked ∧
      build_transfer_tx_finalize r = .panicked) ∧
    (∀ tx, build_and_send_dao_tx r = .completed tx → r = .ok (tx, [])) ∧
    (∀ tx, build_transfer_tx_finalize r = .completed tx →
      r = .ok (tx, [])) := by
  refine ⟨?_, ?_, ?_⟩
  · rintro tx gs rfl hgs
    have : gs.isEmpty = false := by
      cases gs with
      | nil => exact absurd rfl hgs
      | cons a l => rfl
    constructor <;>
      simp [build_and_send_dao_tx, build_transfer_tx_finalize, this]
  · intro tx h
    cases r with
    | error e => rw [build_and_send_dao_tx] at h; cases h
    | ok p =>
      obtain ⟨tx', gs⟩ := p
      rw [build_and_send_dao_tx] at h
      cases hgs : gs.isEmpty with
      | false => rw [hgs] at h; simp at h
      | true =>
        rw [hgs] at h
        simp at h
        rw [h, List.isEmpty_iff.mp hgs]
  · intro tx h
    cases r with
    | error e => rw [build_transfer_tx_finalize] at h; cases h
    | ok p =>
      obtain ⟨tx', gs⟩ := p
      rw [build_transfer_tx_finalize] at h
      cases hgs : gs.isEmpty with
      | false => rw [hgs] at h; simp at h
      | true =>
        rw [hgs] at h
        simp at h
        rw [h, List.isEmpty_iff.mp hgs]

/-- C1 (amended) witness: a concrete still-locked group makes both paths
panic. -/
theorem still_locked_groups_abort_build_witness :
    build_and_send_dao_tx
        (.ok (⟨[], [], []⟩, [⟨⟨DAO_TYPE_HASH, .type, []⟩, [1]⟩])) =
      .panicked ∧
    build_transfer_tx_finalize
        (.ok (⟨[], [], []⟩, [⟨⟨DAO_TYPE_HASH, .type, []⟩, [1]⟩])) =
      .panicked :=
  (still_locked_groups_abort_build _).1 _ _ rfl (List.cons_ne_nil _ _)

/-- C9: `parse_out_points` fails on an empty out-point list and succeeds
exactly when every entry splits on `-` into two parts, the first (with an
optional `0x` prefix stripped) parsing as a 32-byte hash and the second as
a `u32`; consequently the Withdraw command's `items[0]` indexing is reached
only with a non-empty item list and cannot panic. -/
theorem parse_out_points_spec (l : List (List Char)) :
    (parse_out_points [] = .error "missing out poinst".data) ∧
    (∀ ops, parse_out_points l = .ok ops →
      l ≠ [] ∧ ops.length = l.length ∧ ∀ s ∈ l, entryWellFormed s) ∧
    ((l ≠ [] ∧ ∀ s ∈ l, entryWellFormed s) →
      ∃ ops, parse_out_points l = .ok ops) ∧
    (∀ w items, withdraw_items l = .ok items →
      (setFirstWitness items w).isSome) := by
  refine ⟨rfl, ?_, ?_, ?_⟩
  · intro ops h
    rw [parse_out_points] at h
    cases hl : l.isEmpty with
    | true => rw [hl] at h; simp at h
    | false =>
      rw [hl] at h
      simp only [Bool.false_eq_true, if_false] at h
      have hne : l ≠ [] := by
        cases l with
        | nil => cases hl
        | cons a t => exact List.cons_ne_nil a t
      refine ⟨hne, mapExcept_ok_length h, ?_⟩
      intro s hs
      exact (parseOutPointStr_ok_iff s).mp (mapExcept_ok_forall h s hs)
  · rintro ⟨hne, hall⟩
    rw [parse_out_points]
    rw [if_neg (by simpa [List.isEmpty_iff] using hne)]
    exact mapExcept_ok_of_forall
      (fun a ha => (parseOutPointStr_ok_iff a).mpr (hall a ha))
  · intro w items h
    rw [withdraw_items] at h
    cases hp : parse_out_points l with
    | error e => rw [hp] at h; cases h
    | ok ops =>
      rw [hp] at h
      cases h
      rw [parse_out_points] at hp
      cases hl : l.isEmpty with
      | true => rw [hl] at hp; simp at hp
      | false =>
        rw [hl] at hp
        simp only [Bool.false_eq_true, if_false] at hp
        have hlen := mapExcept_ok_length hp
        cases ops with
        | nil =>
          cases l with
          | nil => cases hl
          | cons a t => simp at hlen
        | cons op rest => rfl

/-- C9 witness: a concrete well-formed out-point string parses
successfully. -/
theorem parse_out_points_spec_witness :
    ∃ ops, parse_out_points
        ['0' :: 'x' :: (List.replicate 64 'a' ++ ['-', '0'])] =
      .ok ops :=
  (parse_out_points_spec _).2.2.1
    ⟨List.cons_ne_nil _ _, by
      intro s hs
      rw [List.mem_singleton] at hs
      subst hs
      exact ⟨'0' :: 'x' :: List.replicate 64 'a', ['0'],
        by decide, by decide, by decide⟩⟩
